import Mathlib

/-!
# BlindEscrowV2_Oracle — shallow embedding and verification

A shallow embedding of `contracts/BlindEscrowV2.sol`
(contract `BlindEscrowV2_Oracle`): the deal state machine, the
encrypted-comparison step, the oracle signature check, and the
escrow/fund-transfer bookkeeping, translated operation by operation from
the Solidity source. Each external function becomes a Lean function
`EState → Except Err EState` (a revert is an `Except.error`, committing
nothing); the ERC20 transfers become entries of a transfer log; the FHE
ciphertext handles become opaque numbers and the FHE boolean expressions a
small syntax tree, with the `FHE.allow` grants recorded in explicit access
lists.
-/

namespace BlindEscrow

/-- An on-chain principal (`address`); `0` is the zero address. -/
abbrev Address := Nat

/-- `enum DealMode { P2P, OPEN }` (the spec calls `P2P` "DIRECT"). -/
inductive DealMode where
  | P2P
  | OPEN
deriving DecidableEq, Repr

/-- `enum DealState { None, Created, A_Submitted, Ready, OutcomeComputed, Settled, Canceled }` -/
inductive DealState where
  | None
  | Created
  | A_Submitted
  | Ready
  | OutcomeComputed
  | Settled
  | Canceled
deriving DecidableEq, Repr

/-- An encrypted-boolean value (`ebool`) as the FHE expression that
produced it: `FHE.le` over two `euint32` handles, or `FHE.and`. -/
inductive EBool where
  | le : Nat → Nat → EBool
  | and : EBool → EBool → EBool
deriving DecidableEq, Repr

/-- The `Deal` struct. `euint32` handles are `Nat`; a ciphertext field is
`none` while it has never been written (Solidity's all-zero default). -/
structure Deal where
  mode : DealMode
  state : DealState
  seller : Address
  buyer : Address
  paymentToken : Address
  amount : Nat
  encAsk : Option Nat
  encThreshold : Option Nat
  encBid : Option Nat
  encOutcome : Option EBool
  success : Bool
deriving DecidableEq, Repr

/-- The all-zero default a Solidity `mapping` returns for an absent key. -/
def defaultDeal : Deal :=
  { mode := .P2P, state := .None, seller := 0, buyer := 0, paymentToken := 0,
    amount := 0, encAsk := none, encThreshold := none, encBid := none,
    encOutcome := none, success := false }

/-- One ERC20 transfer performed by the engine (`safeTransferFrom` /
`safeTransfer`), tagged with the deal it belongs to (`none` for
`emergencyWithdraw`, which names no deal). -/
structure Transfer where
  token : Address
  src : Address
  dst : Address
  amount : Nat
  dealId : Option Nat
deriving DecidableEq, Repr

/-- Revert reasons, one per `require` string in the source. -/
inductive Err where
  | paymentTokenZero
  | amountZero
  | buyerRequired
  | buyerMustBeZero
  | badState
  | notSeller
  | badStateA
  | buyerFixed
  | buyerLocked
  | transferFail
  | badStateR
  | badStateOC
  | partiesNotSet
  | sigLen
  | badV
  | badOracleSig
  | cannotCancel
  | notOwner
  | oracleZero
  | reentrancy
deriving DecidableEq, Repr

/-- The spec's error taxonomy (§7). -/
inductive ErrClass where
  | invalidParams
  | invalidState
  | unauthorized
  | alreadySet
  | badSignature
  | transferFailure
  | reentrancyGuard
deriving DecidableEq, Repr

/-- Classify each revert reason into the spec's taxonomy. -/
def errClass : Err → ErrClass
  | .paymentTokenZero => .invalidParams
  | .amountZero => .invalidParams
  | .buyerRequired => .invalidParams
  | .buyerMustBeZero => .invalidParams
  | .oracleZero => .invalidParams
  | .badState => .invalidState
  | .badStateA => .invalidState
  | .badStateR => .invalidState
  | .badStateOC => .invalidState
  | .cannotCancel => .invalidState
  | .partiesNotSet => .invalidState
  | .notSeller => .unauthorized
  | .buyerFixed => .unauthorized
  | .notOwner => .unauthorized
  | .buyerLocked => .alreadySet
  | .sigLen => .badSignature
  | .badV => .badSignature
  | .badOracleSig => .badSignature
  | .transferFail => .transferFailure
  | .reentrancy => .reentrancyGuard

/-- The whole contract state. `deals` is the storage mapping, `transfers`
the log of ERC20 movements the engine performed (newest first), `aclU32`
the `FHE.allow`/`allowThis` grants on `euint32` handles, `aclBool` the
grants on `ebool` values, `locked` the OpenZeppelin `ReentrancyGuard`
flag. -/
structure EState where
  nextId : Nat
  deals : Nat → Deal
  oracleSigner : Address
  owner : Address
  locked : Bool
  aclU32 : List (Nat × Address)
  aclBool : List (EBool × Address)
  transfers : List Transfer

/-- The execution environment: the contract's own address, the chain id,
and the external cryptographic primitives (keccak and `ecrecover`),
abstracted as functions. -/
structure Env where
  self : Address
  chainId : Nat
  keccakTuple : Address → Nat → Nat → Bool → Nat
  keccakPrefixed : Nat → Nat
  ecrecover : Nat → Nat → Nat → Nat → Address

/-- Write one deal of the mapping. -/
def setDeal (st : EState) (id : Nat) (d : Deal) : EState :=
  { st with deals := fun j => if j = id then d else st.deals j }

/-- The state right after the constructor
(`constructor(initialOwner, _oracleSigner)`). -/
def initState (ow orc : Address) : EState :=
  { nextId := 0, deals := fun _ => defaultDeal, oracleSigner := orc,
    owner := ow, locked := false, aclU32 := [], aclBool := [], transfers := [] }

/-- The state `createDeal` commits on success: the fresh deal stored at
id `nextId + 1`, the counter bumped. -/
def createCommit (sender : Address) (mode : DealMode) (token : Address)
    (amount : Nat) (buyerOpt : Address) (st : EState) : EState :=
  let d2 : Deal :=
    { mode := mode, state := .Created, seller := sender, buyer := buyerOpt,
      paymentToken := token, amount := amount, encAsk := none,
      encThreshold := none, encBid := none, encOutcome := none,
      success := false }
  { setDeal st (st.nextId + 1) d2 with nextId := st.nextId + 1 }

/-- `createDeal(mode, paymentToken, amount, buyerOpt)` — guards in source
order; on success stores the fresh deal at id `nextId+1`. -/
def createDeal (sender : Address) (mode : DealMode) (token : Address)
    (amount : Nat) (buyerOpt : Address) (st : EState) : Except Err EState :=
  if token = 0 then .error .paymentTokenZero
  else if amount = 0 then .error .amountZero
  else if mode = DealMode.P2P ∧ buyerOpt = 0 then .error .buyerRequired
  else if mode = DealMode.OPEN ∧ buyerOpt ≠ 0 then .error .buyerMustBeZero
  else .ok (createCommit sender mode token amount buyerOpt st)

/-- The state `sellerSubmit` commits on success. -/
def submitCommit (env : Env) (id : Nat) (encAsk encThreshold : Nat)
    (st : EState) : EState :=
  let d := st.deals id
  let d2 : Deal :=
    { d with
      encAsk := some encAsk, encThreshold := some encThreshold,
      state := .A_Submitted }
  { setDeal st id d2 with
    aclU32 := (encThreshold, env.self) :: (encAsk, env.self) :: st.aclU32 }

/-- `sellerSubmit(id, encAsk, encThreshold)`: requires `Created` state and
the seller; stores both ciphertexts, grants the contract itself compute
rights (`FHE.allowThis`), advances to `A_Submitted`. -/
def sellerSubmit (env : Env) (sender : Address) (id : Nat)
    (encAsk encThreshold : Nat) (st : EState) : Except Err EState :=
  if (st.deals id).state ≠ DealState.Created then .error .badState
  else if sender ≠ (st.deals id).seller then .error .notSeller
  else .ok (submitCommit env id encAsk encThreshold st)

/-- The state `placeBid` commits on success: buyer bound (OPEN mode),
`encBid` stored and granted to the contract, the escrow transfer of
`amount` pulled from the caller, state advanced to `Ready`. -/
def placeBidCommit (env : Env) (sender : Address) (id : Nat) (encBid : Nat)
    (st : EState) : EState :=
  let d := st.deals id
  let b2 := if d.mode = DealMode.P2P then d.buyer else sender
  let d2 : Deal := { d with buyer := b2, encBid := some encBid, state := .Ready }
  let tr : Transfer :=
    { token := d.paymentToken, src := sender, dst := env.self,
      amount := d.amount, dealId := some id }
  { setDeal st id d2 with
    aclU32 := (encBid, env.self) :: st.aclU32, transfers := tr :: st.transfers }

/-- `placeBid(id, encBid)` (`nonReentrant`): `tok` is the outcome of the
external `safeTransferFrom` call — `false` makes the whole call revert. -/
def placeBid (env : Env) (sender : Address) (id : Nat) (encBid : Nat)
    (tok : Bool) (st : EState) : Except Err EState :=
  if st.locked then .error .reentrancy
  else if (st.deals id).state ≠ DealState.A_Submitted then .error .badStateA
  else if (st.deals id).mode = DealMode.P2P then
    if sender ≠ (st.deals id).buyer then .error .buyerFixed
    else if tok = false then .error .transferFail
    else .ok (placeBidCommit env sender id encBid st)
  else if (st.deals id).buyer ≠ 0 then .error .buyerLocked
  else if tok = false then .error .transferFail
  else .ok (placeBidCommit env sender id encBid st)

/-- The encrypted outcome `computeOutcome` builds:
`FHE.and (FHE.le encBid encAsk) (FHE.le encAsk encThreshold)`. -/
def outcomeExpr (d : Deal) : EBool :=
  .and (.le (d.encBid.getD 0) (d.encAsk.getD 0))
       (.le (d.encAsk.getD 0) (d.encThreshold.getD 0))

/-- The state `computeOutcome` commits on success. -/
def computeCommit (id : Nat) (st : EState) : EState :=
  let d := st.deals id
  let d2 : Deal :=
    { d with encOutcome := some (outcomeExpr d), state := .OutcomeComputed }
  { setDeal st id d2 with
    aclBool := (outcomeExpr d, st.oracleSigner) :: st.aclBool }

/-- `computeOutcome(id)`: callable by anyone (it takes no caller and is
not `nonReentrant` in the source); requires `Ready`; stores the encrypted
outcome, grants the oracle signer decrypt rights over it (`FHE.allow`),
advances to `OutcomeComputed`. -/
def computeOutcome (id : Nat) (st : EState) : Except Err EState :=
  if (st.deals id).state ≠ DealState.Ready then .error .badStateR
  else .ok (computeCommit id st)

/-- Big-endian bytes to a number (`mload` of a 32-byte word). -/
def beNat (l : List Nat) : Nat := l.foldl (fun a b => a * 256 + b) 0

/-- The `r` component of a 65-byte signature (bytes 0–31). -/
def rPart (sig : List Nat) : Nat := beNat (sig.take 32)

/-- The `s` component of a 65-byte signature (bytes 32–63). -/
def sPart (sig : List Nat) : Nat := beNat ((sig.drop 32).take 32)

/-- The recovery byte `v` (byte 64) after the `if (v < 27) v += 27`
normalization of `_recover`. -/
def normV (sig : List Nat) : Nat :=
  let v0 := sig.getD 64 0
  if v0 < 27 then v0 + 27 else v0

/-- `_finalizeDigest(address(this), block.chainid, id, outcome)`:
`keccak256("\x19Ethereum Signed Message:\n32" ++ keccak256(abi.encode(...)))`,
with the two keccak applications abstract in `Env`. -/
def finalizeDigest (env : Env) (id : Nat) (outcome : Bool) : Nat :=
  env.keccakPrefixed (env.keccakTuple env.self env.chainId id outcome)

/-- `_recover(digest, sig)`: requires a 65-byte signature and a normalized
`v` of 27 or 28, then returns `ecrecover(digest, v, r, s)`. -/
def recoverSig (env : Env) (digest : Nat) (sig : List Nat) : Except Err Address :=
  if sig.length ≠ 65 then .error .sigLen
  else if normV sig = 27 ∨ normV sig = 28 then
    .ok (env.ecrecover digest (normV sig) (rPart sig) (sPart sig))
  else .error .badV

/-- The state `finalizeWithOracle` commits on success: `success` written,
the single release transfer (seller on `true`, buyer on `false`) logged,
state advanced to the terminal `Settled`/`Canceled`. -/
def finalizeCommit (env : Env) (id : Nat) (outcome : Bool) (st : EState) : EState :=
  let d := st.deals id
  let d2 : Deal :=
    { d with
      success := outcome,
      state := if outcome then .Settled else .Canceled }
  let tr : Transfer :=
    { token := d.paymentToken, src := env.self,
      dst := if outcome then d.seller else d.buyer,
      amount := d.amount, dealId := some id }
  { setDeal st id d2 with transfers := tr :: st.transfers }

/-- `finalizeWithOracle(id, outcome, signature)` (`nonReentrant`): requires
`OutcomeComputed`, both parties bound, a signature recovering to
`oracleSigner` over the finalize digest; `tok` is the outcome of the
external `safeTransfer`. -/
def finalizeWithOracle (env : Env) (_sender : Address) (id : Nat)
    (outcome : Bool) (sig : List Nat) (tok : Bool) (st : EState) :
    Except Err EState :=
  if st.locked then .error .reentrancy
  else if (st.deals id).state ≠ DealState.OutcomeComputed then .error .badStateOC
  else if (st.deals id).seller = 0 ∨ (st.deals id).buyer = 0 then
    .error .partiesNotSet
  else
    match recoverSig env (finalizeDigest env id outcome) sig with
    | .error e => .error e
    | .ok rec =>
      if rec ≠ st.oracleSigner then .error .badOracleSig
      else if tok = false then .error .transferFail
      else .ok (finalizeCommit env id outcome st)

/-- The intermediate state of `finalizeWithOracle` at the moment the
external `safeTransfer` call runs (the point a re-entrant callback would
observe): all guards have passed, `d.success` has been written, the
re-entrancy lock is held — but `d.state` is still `OutcomeComputed`,
because the source writes `d.state` only after the transfer. -/
def finalizeMid (env : Env) (_sender : Address) (id : Nat) (outcome : Bool)
    (sig : List Nat) (st : EState) : Except Err EState :=
  if st.locked then .error .reentrancy
  else if (st.deals id).state ≠ DealState.OutcomeComputed then .error .badStateOC
  else if (st.deals id).seller = 0 ∨ (st.deals id).buyer = 0 then
    .error .partiesNotSet
  else
    match recoverSig env (finalizeDigest env id outcome) sig with
    | .error e => .error e
    | .ok rec =>
      if rec ≠ st.oracleSigner then .error .badOracleSig
      else .ok { setDeal st id { st.deals id with success := outcome }
                 with locked := true }

/-- `sellerCancelBeforeBid(id)`: seller-only, from `Created` or
`A_Submitted`; moves to `Canceled`, no funds moved. -/
def sellerCancelBeforeBid (sender : Address) (id : Nat) (st : EState) :
    Except Err EState :=
  if (st.deals id).state = DealState.Created ∨
     (st.deals id).state = DealState.A_Submitted then
    if sender ≠ (st.deals id).seller then .error .notSeller
    else .ok (setDeal st id { st.deals id with state := DealState.Canceled })
  else .error .cannotCancel

/-- `setOracleSigner(s)` (`onlyOwner`): rejects the zero address. -/
def setOracleSigner (sender : Address) (a : Address) (st : EState) :
    Except Err EState :=
  if sender ≠ st.owner then .error .notOwner
  else if a = 0 then .error .oracleZero
  else .ok { st with oracleSigner := a }

/-- `emergencyWithdraw(token, amount)` (`onlyOwner`): transfers `amount`
of `token` out of the engine to the owner, touching no deal. -/
def emergencyWithdraw (env : Env) (sender : Address) (token : Address)
    (amount : Nat) (tok : Bool) (st : EState) : Except Err EState :=
  if sender ≠ st.owner then .error .notOwner
  else if tok = false then .error .transferFail
  else .ok { st with transfers := { token := token, src := env.self,
                                    dst := st.owner, amount := amount,
                                    dealId := none } :: st.transfers }

/-- One external call to the contract, with its `msg.sender` and
arguments. `tok` flags carry the success of the external token call the
operation makes. -/
inductive Op where
  | create (sender : Address) (mode : DealMode) (token : Address)
      (amount : Nat) (buyerOpt : Address)
  | submit (sender : Address) (id : Nat) (encAsk encThreshold : Nat)
  | bid (sender : Address) (id : Nat) (encBid : Nat) (tok : Bool)
  | compute (sender : Address) (id : Nat)
  | fin (sender : Address) (id : Nat) (outcome : Bool) (sig : List Nat) (tok : Bool)
  | cancel (sender : Address) (id : Nat)
  | setOracle (sender : Address) (a : Address)
  | withdrawTok (sender : Address) (token : Address) (amount : Nat) (tok : Bool)

/-- The `msg.sender` of an operation. -/
def Op.sender : Op → Address
  | .create s _ _ _ _ => s
  | .submit s _ _ _ => s
  | .bid s _ _ _ => s
  | .compute s _ => s
  | .fin s _ _ _ _ => s
  | .cancel s _ => s
  | .setOracle s _ => s
  | .withdrawTok s _ _ _ => s

/-- Whether the operation is `finalizeWithOracle`. -/
def Op.isFin : Op → Bool
  | .fin _ _ _ _ _ => true
  | _ => false

/-- Whether the operation is `emergencyWithdraw`. -/
def Op.isWithdraw : Op → Bool
  | .withdrawTok _ _ _ _ => true
  | _ => false

/-- Run one operation against the contract state. -/
def runOp (env : Env) : Op → EState → Except Err EState
  | .create s m t a b, st => createDeal s m t a b st
  | .submit s id a t, st => sellerSubmit env s id a t st
  | .bid s id e tok, st => placeBid env s id e tok st
  | .compute _ id, st => computeOutcome id st
  | .fin s id o sig tok, st => finalizeWithOracle env s id o sig tok st
  | .cancel s id, st => sellerCancelBeforeBid s id st
  | .setOracle s a, st => setOracleSigner s a st
  | .withdrawTok s t a tok, st => emergencyWithdraw env s t a tok st

/-- One successful transaction: some operation, from a real external
sender (nonzero and not the contract itself), that does not revert. -/
def Step (env : Env) (st st' : EState) : Prop :=
  ∃ op : Op, op.sender ≠ 0 ∧ op.sender ≠ env.self ∧ runOp env op st = .ok st'

/-- Reachability: every state the deployed contract can be in, starting
from a constructor call with a nonzero owner and oracle signer. -/
def Reachable (env : Env) (ow orc : Address) (st : EState) : Prop :=
  ow ≠ 0 ∧ orc ≠ 0 ∧ Relation.ReflTransGen (Step env) (initState ow orc) st

/-! ## Inversion lemmas: what a non-reverting call implies -/

theorem setDeal_same (st : EState) (id : Nat) (d : Deal) :
    (setDeal st id d).deals id = d := by
  simp [setDeal]

theorem setDeal_other (st : EState) (id : Nat) (d : Deal) (j : Nat)
    (h : j ≠ id) : (setDeal st id d).deals j = st.deals j := by
  simp [setDeal, h]

theorem recoverSig_ok {env : Env} {dg : Nat} {sig : List Nat} {a : Address}
    (h : recoverSig env dg sig = .ok a) :
    sig.length = 65 ∧ (normV sig = 27 ∨ normV sig = 28) ∧
    a = env.ecrecover dg (normV sig) (rPart sig) (sPart sig) := by
  unfold recoverSig at h
  split_ifs at h with h1 h2
  injection h with h3
  exact ⟨not_not.mp h1, h2, h3.symm⟩

theorem createDeal_ok {sender : Address} {mode : DealMode} {token : Address}
    {amount : Nat} {buyerOpt : Address} {st st' : EState}
    (h : createDeal sender mode token amount buyerOpt st = .ok st') :
    token ≠ 0 ∧ amount ≠ 0 ∧ (mode = DealMode.P2P → buyerOpt ≠ 0) ∧
    (mode = DealMode.OPEN → buyerOpt = 0) ∧
    st' = createCommit sender mode token amount buyerOpt st := by
  unfold createDeal at h
  split_ifs at h with h1 h2 h3 h4
  injection h with h5
  refine ⟨h1, h2, fun hm hb => h3 ⟨hm, hb⟩, fun hm => ?_, h5.symm⟩
  by_contra hb
  exact h4 ⟨hm, hb⟩

theorem sellerSubmit_ok {env : Env} {sender : Address} {id encAsk encThreshold : Nat}
    {st st' : EState}
    (h : sellerSubmit env sender id encAsk encThreshold st = .ok st') :
    (st.deals id).state = DealState.Created ∧ sender = (st.deals id).seller ∧
    st' = submitCommit env id encAsk encThreshold st := by
  unfold sellerSubmit at h
  split_ifs at h with h1 h2
  injection h with h3
  exact ⟨not_not.mp h1, not_not.mp h2, h3.symm⟩

theorem placeBid_ok {env : Env} {sender : Address} {id encBid : Nat} {tok : Bool}
    {st st' : EState}
    (h : placeBid env sender id encBid tok st = .ok st') :
    st.locked = false ∧ (st.deals id).state = DealState.A_Submitted ∧ tok = true ∧
    (((st.deals id).mode = DealMode.P2P ∧ sender = (st.deals id).buyer) ∨
     ((st.deals id).mode = DealMode.OPEN ∧ (st.deals id).buyer = 0)) ∧
    st' = placeBidCommit env sender id encBid st := by
  unfold placeBid at h
  split_ifs at h with h1 h2 h3 h4 h5 h6 h7
  · injection h with hc
    refine ⟨by simpa using h1, not_not.mp h2, by simpa using h5, ?_, hc.symm⟩
    exact .inl ⟨h3, not_not.mp h4⟩
  · injection h with hc
    refine ⟨by simpa using h1, not_not.mp h2, by simpa using h7, ?_, hc.symm⟩
    have hm : (st.deals id).mode = DealMode.OPEN := by
      cases hmm : (st.deals id).mode with
      | P2P => exact absurd hmm h3
      | OPEN => rfl
    exact .inr ⟨hm, not_not.mp h6⟩

theorem computeOutcome_ok {id : Nat} {st st' : EState}
    (h : computeOutcome id st = .ok st') :
    (st.deals id).state = DealState.Ready ∧ st' = computeCommit id st := by
  unfold computeOutcome at h
  split_ifs at h with h1
  injection h with h2
  exact ⟨not_not.mp h1, h2.symm⟩

theorem finalize_ok {env : Env} {sender : Address} {id : Nat} {outcome : Bool}
    {sig : List Nat} {tok : Bool} {st st' : EState}
    (h : finalizeWithOracle env sender id outcome sig tok st = .ok st') :
    st.locked = false ∧ (st.deals id).state = DealState.OutcomeComputed ∧
    (st.deals id).seller ≠ 0 ∧ (st.deals id).buyer ≠ 0 ∧
    sig.length = 65 ∧ (normV sig = 27 ∨ normV sig = 28) ∧
    env.ecrecover (finalizeDigest env id outcome) (normV sig) (rPart sig)
      (sPart sig) = st.oracleSigner ∧
    tok = true ∧ st' = finalizeCommit env id outcome st := by
  unfold finalizeWithOracle at h
  rcases hr : recoverSig env (finalizeDigest env id outcome) sig with e | rec <;>
    simp only [hr] at h
  · split_ifs at h
  · split_ifs at h with h1 h2 h3 h4 h5
    injection h with hc
    obtain ⟨hl, hv, ha⟩ := recoverSig_ok hr
    push_neg at h3
    refine ⟨by simpa using h1, not_not.mp h2, h3.1, h3.2, hl, hv, ?_,
      by simpa using h5, hc.symm⟩
    rw [← ha]
    exact not_not.mp h4

theorem finalizeMid_ok {env : Env} {sender : Address} {id : Nat} {outcome : Bool}
    {sig : List Nat} {st m : EState}
    (h : finalizeMid env sender id outcome sig st = .ok m) :
    m.locked = true ∧ (m.deals id).state = DealState.OutcomeComputed ∧
    (m.deals id).success = outcome := by
  unfold finalizeMid at h
  rcases hr : recoverSig env (finalizeDigest env id outcome) sig with e | rec <;>
    simp only [hr] at h
  · split_ifs at h
  · split_ifs at h with h1 h2 h3 h4
    injection h with hc
    subst hc
    refine ⟨rfl, ?_, ?_⟩ <;> simp [setDeal, not_not.mp h2]

theorem cancel_ok {sender : Address} {id : Nat} {st st' : EState}
    (h : sellerCancelBeforeBid sender id st = .ok st') :
    ((st.deals id).state = DealState.Created ∨
     (st.deals id).state = DealState.A_Submitted) ∧
    sender = (st.deals id).seller ∧
    st' = setDeal st id { st.deals id with state := DealState.Canceled } := by
  unfold sellerCancelBeforeBid at h
  split_ifs at h with h1 h2
  injection h with h3
  exact ⟨h1, not_not.mp h2, h3.symm⟩

theorem setOracle_ok {sender a : Address} {st st' : EState}
    (h : setOracleSigner sender a st = .ok st') :
    sender = st.owner ∧ a ≠ 0 ∧ st' = { st with oracleSigner := a } := by
  unfold setOracleSigner at h
  split_ifs at h with h1 h2
  injection h with h3
  exact ⟨not_not.mp h1, h2, h3.symm⟩

theorem withdraw_ok {env : Env} {sender token : Address} {amount : Nat}
    {tok : Bool} {st st' : EState}
    (h : emergencyWithdraw env sender token amount tok st = .ok st') :
    sender = st.owner ∧ tok = true ∧
    st' = { st with transfers := { token := token, src := env.self,
                                   dst := st.owner, amount := amount,
                                   dealId := none } :: st.transfers } := by
  unfold emergencyWithdraw at h
  split_ifs at h with h1 h2
  injection h with h3
  exact ⟨not_not.mp h1, by simpa using h2, h3.symm⟩

/-! ## The reachability invariant -/

/-- Rank of a deal state in the canonical forward order
`None < Created < AskSubmitted < Ready < OutcomeComputed < {Settled, Canceled}`. -/
def stateRank : DealState → Nat
  | .None => 0
  | .Created => 1
  | .A_Submitted => 2
  | .Ready => 3
  | .OutcomeComputed => 4
  | .Settled => 5
  | .Canceled => 5

/-- The two terminal deal states. -/
def terminalState (s : DealState) : Prop :=
  s = DealState.Settled ∨ s = DealState.Canceled

instance : DecidablePred terminalState := fun s => by
  unfold terminalState; infer_instance

/-- Escrow transfers recorded for deal `id` (into the engine). -/
def escrowCountL (env : Env) (l : List Transfer) (id : Nat) : Nat :=
  l.countP (fun t => t.dealId == some id && t.dst == env.self)

/-- Release transfers recorded for deal `id` (out of the engine). -/
def releaseCountL (env : Env) (l : List Transfer) (id : Nat) : Nat :=
  l.countP (fun t => t.dealId == some id && t.src == env.self)

/-- Escrow transfers of a state's log for deal `id`. -/
def escrowCount (env : Env) (st : EState) (id : Nat) : Nat :=
  escrowCountL env st.transfers id

/-- Release transfers of a state's log for deal `id`. -/
def releaseCount (env : Env) (st : EState) (id : Nat) : Nat :=
  releaseCountL env st.transfers id

/-- The per-deal structural invariant, indexed by the deal's state: which
write-once fields are set, and that the parties are genuine external
principals. -/
def dealInvAt (env : Env) (d : Deal) : DealState → Prop
  | .None => d = defaultDeal
  | .Created =>
      d.encAsk = none ∧ d.encThreshold = none ∧ d.encBid = none ∧
      d.encOutcome = none ∧ d.seller ≠ 0 ∧ d.seller ≠ env.self ∧
      (d.mode = DealMode.P2P → d.buyer ≠ 0) ∧
      (d.mode = DealMode.OPEN → d.buyer = 0)
  | .A_Submitted =>
      d.encAsk.isSome = true ∧ d.encThreshold.isSome = true ∧ d.encBid = none ∧
      d.encOutcome = none ∧ d.seller ≠ 0 ∧ d.seller ≠ env.self ∧
      (d.mode = DealMode.P2P → d.buyer ≠ 0) ∧
      (d.mode = DealMode.OPEN → d.buyer = 0)
  | .Ready =>
      d.encAsk.isSome = true ∧ d.encThreshold.isSome = true ∧
      d.encBid.isSome = true ∧ d.encOutcome = none ∧
      d.seller ≠ 0 ∧ d.seller ≠ env.self ∧ d.buyer ≠ 0 ∧ d.buyer ≠ env.self
  | .OutcomeComputed =>
      d.encAsk.isSome = true ∧ d.encThreshold.isSome = true ∧
      d.encBid.isSome = true ∧ d.encOutcome.isSome = true ∧
      d.seller ≠ 0 ∧ d.seller ≠ env.self ∧ d.buyer ≠ 0 ∧ d.buyer ≠ env.self
  | .Settled => True
  | .Canceled => True

/-- The per-deal structural invariant. -/
def dealInv (env : Env) (d : Deal) : Prop := dealInvAt env d d.state

/-- The escrow-accounting table, indexed by the deal's state: how many
escrow and release transfers the log may hold for this deal. -/
def escrowInvAt (e r : Nat) : DealState → Prop
  | .None => e = 0 ∧ r = 0
  | .Created => e = 0 ∧ r = 0
  | .A_Submitted => e = 0 ∧ r = 0
  | .Ready => e = 1 ∧ r = 0
  | .OutcomeComputed => e = 1 ∧ r = 0
  | .Settled => e = 1 ∧ r = 1
  | .Canceled => (e = 0 ∧ r = 0) ∨ (e = 1 ∧ r = 1)

/-- The escrow-accounting invariant for one deal. -/
def escrowInv (env : Env) (st : EState) (id : Nat) : Prop :=
  escrowInvAt (escrowCount env st id) (releaseCount env st id)
    ((st.deals id).state)

/-- The global reachability invariant: the lock is free at rest, the
oracle signer is never the zero address, ids above the counter are
untouched, and every deal satisfies its structural and escrow-accounting
invariants. -/
def GlobalInv (env : Env) (st : EState) : Prop :=
  st.locked = false ∧ st.oracleSigner ≠ 0 ∧
  (∀ id, st.nextId < id → st.deals id = defaultDeal) ∧
  (∀ id, dealInv env (st.deals id)) ∧
  (∀ id, escrowInv env st id)

theorem globalInv_init {env : Env} {ow orc : Address} (horc : orc ≠ 0) :
    GlobalInv env (initState ow orc) := by
  refine ⟨rfl, horc, fun id _ => rfl, fun id => ?_, fun id => ?_⟩
  · exact rfl
  · exact ⟨rfl, rfl⟩

/-- A deal whose state is not `None` has an id the counter has reached. -/
theorem id_le_nextId {env : Env} {st : EState} {id : Nat}
    (hinv : GlobalInv env st) (hstate : (st.deals id).state ≠ DealState.None) :
    ¬ st.nextId < id := by
  intro hlt
  exact hstate (by rw [hinv.2.2.1 id hlt]; rfl)

theorem escrowCountL_cons_ne {env : Env} {tr : Transfer} {l : List Transfer}
    {id : Nat} (h : tr.dealId ≠ some id) :
    escrowCountL env (tr :: l) id = escrowCountL env l id := by
  simp [escrowCountL, List.countP_cons, beq_eq_false_iff_ne.mpr h]

theorem releaseCountL_cons_ne {env : Env} {tr : Transfer} {l : List Transfer}
    {id : Nat} (h : tr.dealId ≠ some id) :
    releaseCountL env (tr :: l) id = releaseCountL env l id := by
  simp [releaseCountL, List.countP_cons, beq_eq_false_iff_ne.mpr h]

theorem escrowCountL_cons_hit {env : Env} {tr : Transfer} {l : List Transfer}
    {id : Nat} (h1 : tr.dealId = some id) (h2 : tr.dst = env.self) :
    escrowCountL env (tr :: l) id = escrowCountL env l id + 1 := by
  simp [escrowCountL, List.countP_cons, h1, h2]

theorem escrowCountL_cons_dst_ne {env : Env} {tr : Transfer} {l : List Transfer}
    {id : Nat} (h2 : tr.dst ≠ env.self) :
    escrowCountL env (tr :: l) id = escrowCountL env l id := by
  simp [escrowCountL, List.countP_cons, beq_eq_false_iff_ne.mpr h2]

theorem releaseCountL_cons_hit {env : Env} {tr : Transfer} {l : List Transfer}
    {id : Nat} (h1 : tr.dealId = some id) (h2 : tr.src = env.self) :
    releaseCountL env (tr :: l) id = releaseCountL env l id + 1 := by
  simp [releaseCountL, List.countP_cons, h1, h2]

theorem releaseCountL_cons_src_ne {env : Env} {tr : Transfer} {l : List Transfer}
    {id : Nat} (h2 : tr.src ≠ env.self) :
    releaseCountL env (tr :: l) id = releaseCountL env l id := by
  simp [releaseCountL, List.countP_cons, beq_eq_false_iff_ne.mpr h2]

/-- Generic preservation over a single-deal update that leaves the
transfer log, counter, lock and oracle unchanged. -/
theorem globalInv_update {env : Env} {st st' : EState} {id : Nat} {d2 : Deal}
    (hinv : GlobalInv env st)
    (hlock : st'.locked = st.locked)
    (horacle : st'.oracleSigner = st.oracleSigner)
    (hnext : st'.nextId = st.nextId)
    (hdeals : st'.deals = (setDeal st id d2).deals)
    (htr : st'.transfers = st.transfers)
    (hstate : (st.deals id).state ≠ DealState.None)
    (hdeal : dealInv env d2)
    (hesc : escrowInvAt (escrowCount env st id) (releaseCount env st id)
      d2.state) :
    GlobalInv env st' := by
  obtain ⟨hl, ho, hf, hd, he⟩ := hinv
  have hid : ¬ st.nextId < id := id_le_nextId ⟨hl, ho, hf, hd, he⟩ hstate
  refine ⟨hlock.trans hl, ?_, ?_, ?_, ?_⟩
  · rw [horacle]; exact ho
  · intro j hj
    rw [hdeals, setDeal_other]
    · exact hf j (hnext ▸ hj)
    · rintro rfl; exact hid (hnext ▸ hj)
  · intro j
    rw [hdeals]
    by_cases hj : j = id
    · subst hj; rw [setDeal_same]; exact hdeal
    · rw [setDeal_other _ _ _ _ hj]; exact hd j
  · intro j
    have hj' := he j
    unfold escrowInv escrowCount releaseCount at hj' ⊢
    rw [htr, hdeals]
    by_cases hj : j = id
    · subst hj; rw [setDeal_same]; exact hesc
    · rw [setDeal_other _ _ _ _ hj]; exact hj'

/-- Generic preservation over a single-deal update that also appends one
transfer belonging to that deal. -/
theorem globalInv_update_tr {env : Env} {st st' : EState} {id : Nat}
    {d2 : Deal} {tr : Transfer}
    (hinv : GlobalInv env st)
    (hlock : st'.locked = st.locked)
    (horacle : st'.oracleSigner = st.oracleSigner)
    (hnext : st'.nextId = st.nextId)
    (hdeals : st'.deals = (setDeal st id d2).deals)
    (htr : st'.transfers = tr :: st.transfers)
    (htrid : tr.dealId = some id)
    (hstate : (st.deals id).state ≠ DealState.None)
    (hdeal : dealInv env d2)
    (hesc : escrowInvAt (escrowCountL env (tr :: st.transfers) id)
      (releaseCountL env (tr :: st.transfers) id) d2.state) :
    GlobalInv env st' := by
  obtain ⟨hl, ho, hf, hd, he⟩ := hinv
  have hid : ¬ st.nextId < id := id_le_nextId ⟨hl, ho, hf, hd, he⟩ hstate
  refine ⟨hlock.trans hl, ?_, ?_, ?_, ?_⟩
  · rw [horacle]; exact ho
  · intro j hj
    rw [hdeals, setDeal_other]
    · exact hf j (hnext ▸ hj)
    · rintro rfl; exact hid (hnext ▸ hj)
  · intro j
    rw [hdeals]
    by_cases hj : j = id
    · subst hj; rw [setDeal_same]; exact hdeal
    · rw [setDeal_other _ _ _ _ hj]; exact hd j
  · intro j
    have hj' := he j
    unfold escrowInv escrowCount releaseCount at hj' ⊢
    rw [htr, hdeals]
    by_cases hj : j = id
    · subst hj; rw [setDeal_same]; exact hesc
    · have hne : tr.dealId ≠ some j := by rw [htrid]; simp [Ne.symm hj]
      rw [setDeal_other _ _ _ _ hj, escrowCountL_cons_ne hne,
        releaseCountL_cons_ne hne]
      exact hj'

theorem inv_create {env : Env} {s : Address} {m : DealMode} {t : Address}
    {a : Nat} {b : Address} {st st' : EState}
    (h0 : s ≠ 0) (hself : s ≠ env.self) (hinv : GlobalInv env st)
    (h : createDeal s m t a b st = .ok st') : GlobalInv env st' := by
  obtain ⟨ht, ha, hbp, hbo, hst⟩ := createDeal_ok h
  subst hst
  obtain ⟨hl, ho, hf, hd, he⟩ := hinv
  refine ⟨hl, ho, ?_, ?_, ?_⟩
  · intro j hj
    have hj2 : st.nextId + 1 < j := hj
    have hne : j ≠ st.nextId + 1 := by omega
    show (setDeal st (st.nextId + 1) _).deals j = defaultDeal
    rw [setDeal_other _ _ _ _ hne]
    exact hf j (by omega)
  · intro j
    show dealInv env ((setDeal st (st.nextId + 1) _).deals j)
    by_cases hj : j = st.nextId + 1
    · subst hj
      rw [setDeal_same]
      exact ⟨rfl, rfl, rfl, rfl, h0, hself, hbp, hbo⟩
    · rw [setDeal_other _ _ _ _ hj]; exact hd j
  · intro j
    have hj' := he j
    unfold escrowInv escrowCount releaseCount at hj' ⊢
    by_cases hj : j = st.nextId + 1
    · subst hj
      have hdef : st.deals (st.nextId + 1) = defaultDeal :=
        hf _ (Nat.lt_succ_self _)
      rw [hdef] at hj'
      show escrowInvAt _ _ ((setDeal st (st.nextId + 1) _).deals
        (st.nextId + 1)).state
      rw [setDeal_same]
      exact hj'
    · show escrowInvAt _ _ ((setDeal st (st.nextId + 1) _).deals j).state
      rw [setDeal_other _ _ _ _ hj]
      exact hj'

theorem inv_submit {env : Env} {sender : Address} {id a t : Nat} {st st' : EState}
    (hinv : GlobalInv env st)
    (h : sellerSubmit env sender id a t st = .ok st') : GlobalInv env st' := by
  obtain ⟨hstate, hsend, hst⟩ := sellerSubmit_ok h
  subst hst
  have hd := hinv.2.2.2.1 id
  unfold dealInv at hd
  rw [hstate] at hd
  obtain ⟨hAsk, hThr, hBid, hOut, hs0, hsS, hbp, hbo⟩ := hd
  have hesc := hinv.2.2.2.2 id
  unfold escrowInv at hesc
  rw [hstate] at hesc
  refine globalInv_update hinv rfl rfl rfl rfl rfl ?_ ?_ ?_
  · rw [hstate]; simp
  · exact ⟨rfl, rfl, hBid, hOut, hs0, hsS, hbp, hbo⟩
  · exact hesc

theorem inv_compute {env : Env} {id : Nat} {st st' : EState}
    (hinv : GlobalInv env st)
    (h : computeOutcome id st = .ok st') : GlobalInv env st' := by
  obtain ⟨hstate, hst⟩ := computeOutcome_ok h
  subst hst
  have hd := hinv.2.2.2.1 id
  unfold dealInv at hd
  rw [hstate] at hd
  obtain ⟨hAsk, hThr, hBid, hOut, hs0, hsS, hb0, hbS⟩ := hd
  have hesc := hinv.2.2.2.2 id
  unfold escrowInv at hesc
  rw [hstate] at hesc
  refine globalInv_update hinv rfl rfl rfl rfl rfl ?_ ?_ ?_
  · rw [hstate]; simp
  · exact ⟨hAsk, hThr, hBid, rfl, hs0, hsS, hb0, hbS⟩
  · exact hesc

theorem inv_cancel {sender : Address} {id : Nat} {env : Env} {st st' : EState}
    (hinv : GlobalInv env st)
    (h : sellerCancelBeforeBid sender id st = .ok st') : GlobalInv env st' := by
  obtain ⟨hstate, hsend, hst⟩ := cancel_ok h
  subst hst
  have hesc := hinv.2.2.2.2 id
  unfold escrowInv at hesc
  refine globalInv_update hinv rfl rfl rfl rfl rfl ?_ ?_ ?_
  · rcases hstate with h1 | h1 <;> rw [h1] <;> simp
  · show dealInvAt env _ DealState.Canceled
    trivial
  · show escrowInvAt _ _ DealState.Canceled
    rcases hstate with h1 | h1 <;> rw [h1] at hesc <;> exact Or.inl hesc

theorem inv_setOracle {sender a : Address} {env : Env} {st st' : EState}
    (hinv : GlobalInv env st)
    (h : setOracleSigner sender a st = .ok st') : GlobalInv env st' := by
  obtain ⟨hown, ha, hst⟩ := setOracle_ok h
  subst hst
  obtain ⟨hl, ho, hf, hd, he⟩ := hinv
  exact ⟨hl, ha, hf, hd, he⟩

/-- Preservation over a state that only appended a transfer tagged with
no deal id. -/
theorem globalInv_cons_untagged {env : Env} {st st' : EState} {tr : Transfer}
    (hinv : GlobalInv env st)
    (hlock : st'.locked = st.locked)
    (horacle : st'.oracleSigner = st.oracleSigner)
    (hnext : st'.nextId = st.nextId)
    (hdeals : st'.deals = st.deals)
    (htr : st'.transfers = tr :: st.transfers)
    (hid : tr.dealId = none) : GlobalInv env st' := by
  obtain ⟨hl, ho, hf, hd, he⟩ := hinv
  refine ⟨hlock.trans hl, ?_, ?_, ?_, ?_⟩
  · rw [horacle]; exact ho
  · intro j hj
    rw [hdeals]
    exact hf j (hnext ▸ hj)
  · intro j
    rw [hdeals]
    exact hd j
  · intro j
    have hj' := he j
    unfold escrowInv escrowCount releaseCount at hj' ⊢
    have hne : tr.dealId ≠ some j := by rw [hid]; simp
    rw [htr, hdeals, escrowCountL_cons_ne hne, releaseCountL_cons_ne hne]
    exact hj'

theorem inv_withdraw {env : Env} {sender token : Address} {amount : Nat}
    {tok : Bool} {st st' : EState} (hinv : GlobalInv env st)
    (h : emergencyWithdraw env sender token amount tok st = .ok st') :
    GlobalInv env st' := by
  obtain ⟨hown, htok, hst⟩ := withdraw_ok h
  subst hst
  exact globalInv_cons_untagged hinv rfl rfl rfl rfl rfl rfl

theorem inv_bid {env : Env} {sender : Address} {id encBid : Nat} {tok : Bool}
    {st st' : EState} (h0 : sender ≠ 0) (hself : sender ≠ env.self)
    (hinv : GlobalInv env st)
    (h : placeBid env sender id encBid tok st = .ok st') : GlobalInv env st' := by
  obtain ⟨hlock, hstate, htok, hmode, hst⟩ := placeBid_ok h
  subst hst
  have hd := hinv.2.2.2.1 id
  unfold dealInv at hd
  rw [hstate] at hd
  obtain ⟨hAsk, hThr, hBid, hOut, hs0, hsS, hbp, hbo⟩ := hd
  have hesc := hinv.2.2.2.2 id
  unfold escrowInv escrowCount releaseCount at hesc
  rw [hstate] at hesc
  obtain ⟨he0, hr0⟩ := hesc
  have hb20 : (if (st.deals id).mode = DealMode.P2P then (st.deals id).buyer
      else sender) ≠ 0 := by
    rcases hmode with ⟨hm, hbuy⟩ | ⟨hm, _⟩
    · rw [if_pos hm, ← hbuy]; exact h0
    · have hnp : (st.deals id).mode ≠ DealMode.P2P := by rw [hm]; decide
      rw [if_neg hnp]; exact h0
  have hb2S : (if (st.deals id).mode = DealMode.P2P then (st.deals id).buyer
      else sender) ≠ env.self := by
    rcases hmode with ⟨hm, hbuy⟩ | ⟨hm, _⟩
    · rw [if_pos hm, ← hbuy]; exact hself
    · have hnp : (st.deals id).mode ≠ DealMode.P2P := by rw [hm]; decide
      rw [if_neg hnp]; exact hself
  refine globalInv_update_tr hinv rfl rfl rfl rfl rfl rfl ?_ ?_ ?_
  · rw [hstate]; simp
  · exact ⟨hAsk, hThr, rfl, hOut, hs0, hsS, hb20, hb2S⟩
  · refine ⟨?_, ?_⟩
    · rw [escrowCountL_cons_hit rfl rfl, he0]
    · rw [releaseCountL_cons_src_ne hself, hr0]

theorem inv_fin {env : Env} {sender : Address} {id : Nat} {outcome : Bool}
    {sig : List Nat} {tok : Bool} {st st' : EState} (hinv : GlobalInv env st)
    (h : finalizeWithOracle env sender id outcome sig tok st = .ok st') :
    GlobalInv env st' := by
  obtain ⟨hlock, hstate, hsell, hbuy, hlen, hv, hrec, htok, hst⟩ := finalize_ok h
  subst hst
  have hd := hinv.2.2.2.1 id
  unfold dealInv at hd
  rw [hstate] at hd
  obtain ⟨hAsk, hThr, hBid, hOut, hs0, hsS, hb0, hbS⟩ := hd
  have hesc := hinv.2.2.2.2 id
  unfold escrowInv escrowCount releaseCount at hesc
  rw [hstate] at hesc
  obtain ⟨he1, hr0⟩ := hesc
  refine globalInv_update_tr hinv rfl rfl rfl rfl rfl rfl ?_ ?_ ?_
  · rw [hstate]; simp
  · unfold dealInv
    cases outcome
    · exact trivial
    · exact trivial
  · cases outcome
    · refine Or.inr ⟨?_, ?_⟩
      · rw [escrowCountL_cons_dst_ne (by simpa using hbS), he1]
      · rw [releaseCountL_cons_hit rfl rfl, hr0]
    · refine ⟨?_, ?_⟩
      · rw [escrowCountL_cons_dst_ne (by simpa using hsS), he1]
      · rw [releaseCountL_cons_hit rfl rfl, hr0]

/-- One successful transaction preserves the global invariant. -/
theorem inv_step {env : Env} {st st' : EState} (hinv : GlobalInv env st)
    (h : Step env st st') : GlobalInv env st' := by
  obtain ⟨op, h0, hself, hrun⟩ := h
  cases op with
  | create s m t a b => exact inv_create h0 hself hinv hrun
  | submit s idd a t => exact inv_submit hinv hrun
  | bid s idd e tk => exact inv_bid h0 hself hinv hrun
  | compute s idd => exact inv_compute hinv hrun
  | fin s idd o sg tk =>
    have hrun' : finalizeWithOracle env s idd o sg tk st = Except.ok st' := hrun
    exact inv_fin hinv hrun'
  | cancel s idd => exact inv_cancel hinv hrun
  | setOracle s a => exact inv_setOracle hinv hrun
  | withdrawTok s t a tk => exact inv_withdraw hinv hrun

/-- Every reachable state satisfies the global invariant. -/
theorem reachable_inv {env : Env} {ow orc : Address} {st : EState}
    (h : Reachable env ow orc st) : GlobalInv env st := by
  obtain ⟨how, horc, hchain⟩ := h
  induction hchain with
  | refl => exact globalInv_init horc
  | tail hab hbc ih => exact inv_step ih hbc

/-! ## A concrete deployment used as evaluation ground

Owner `5`, oracle signer `9`, the engine at address `1000`; seller `2`
creates P2P deal 1 with payment token `4`, amount `100`, buyer `3`. The
abstract `ecrecover` recovers the oracle exactly for signatures whose
normalized `v` is 27. -/

def envW : Env :=
  { self := 1000, chainId := 31337,
    keccakTuple := fun a c i o => a * 1000003 + c * 1009 + i * 31 +
      (if o then 1 else 0),
    keccakPrefixed := fun n => n + 7,
    ecrecover := fun _ v _ _ => if v = 27 then 9 else 0 }

/-- A well-formed 65-byte signature that recovers to the oracle. -/
def sigGood : List Nat := List.replicate 64 0 ++ [27]

/-- A well-formed 65-byte signature on which recovery fails (yields 0). -/
def sigZero : List Nat := List.replicate 64 0 ++ [28]

/-- Extract the committed state of a non-reverting call. -/
def okState (e : Except Err EState) (fallback : EState) : EState :=
  match e with
  | .ok s => s
  | .error _ => fallback

/-- Deal state of a call's result (`None` if the call reverted). -/
def stateOfE (e : Except Err EState) (id : Nat) : DealState :=
  match e with
  | .ok m => (m.deals id).state
  | .error _ => DealState.None

def s0W : EState := initState 5 9

def s1W : EState := okState (createDeal 2 DealMode.P2P 4 100 3 s0W) s0W

def s2W : EState := okState (sellerSubmit envW 2 1 10 11 s1W) s1W

def s3W : EState := okState (placeBid envW 3 1 12 true s2W) s2W

def s4W : EState := okState (computeOutcome 1 s3W) s3W

def s5W : EState := okState (finalizeWithOracle envW 6 1 true sigGood true s4W) s4W

theorem step01 : Step envW s0W s1W :=
  ⟨Op.create 2 DealMode.P2P 4 100 3, by decide, by decide, rfl⟩

theorem step12 : Step envW s1W s2W :=
  ⟨Op.submit 2 1 10 11, by decide, by decide, rfl⟩

theorem step23 : Step envW s2W s3W :=
  ⟨Op.bid 3 1 12 true, by decide, by decide, rfl⟩

theorem step34 : Step envW s3W s4W :=
  ⟨Op.compute 7 1, by decide, by decide, rfl⟩

theorem step45 : Step envW s4W s5W :=
  ⟨Op.fin 6 1 true sigGood true, by decide, by decide, rfl⟩

theorem reach0 : Reachable envW 5 9 s0W := ⟨by decide, by decide, .refl⟩

theorem reach1 : Reachable envW 5 9 s1W :=
  ⟨by decide, by decide, .tail .refl step01⟩

theorem reach2 : Reachable envW 5 9 s2W :=
  ⟨by decide, by decide, .tail (.tail .refl step01) step12⟩

theorem reach3 : Reachable envW 5 9 s3W :=
  ⟨by decide, by decide, .tail (.tail (.tail .refl step01) step12) step23⟩

theorem reach4 : Reachable envW 5 9 s4W :=
  ⟨by decide, by decide,
   .tail (.tail (.tail (.tail .refl step01) step12) step23) step34⟩

theorem reach5 : Reachable envW 5 9 s5W :=
  ⟨by decide, by decide,
   .tail (.tail (.tail (.tail (.tail .refl step01) step12) step23) step34)
     step45⟩

/-! ## Shape of a single transition, per deal -/

/-- Every successful transaction either leaves a given deal unchanged or
performs exactly one of the six source transitions on it. -/
theorem step_deal_shape {env : Env} {st st' : EState} (hinv : GlobalInv env st)
    (h : Step env st st') (id : Nat) :
    st'.deals id = st.deals id ∨
    (st.deals id = defaultDeal ∧ (st'.deals id).state = DealState.Created ∧
      (st'.deals id).encAsk = none ∧ (st'.deals id).encThreshold = none ∧
      (st'.deals id).encBid = none ∧ (st'.deals id).encOutcome = none ∧
      (st'.deals id).success = false) ∨
    ((st.deals id).state = DealState.Created ∧ ∃ a t, st'.deals id =
      { st.deals id with
        encAsk := some a, encThreshold := some t,
        state := DealState.A_Submitted }) ∨
    ((st.deals id).state = DealState.A_Submitted ∧ ∃ b e,
      ((st.deals id).mode = DealMode.P2P → b = (st.deals id).buyer) ∧
      st'.deals id =
      { st.deals id with
        buyer := b, encBid := some e, state := DealState.Ready }) ∨
    ((st.deals id).state = DealState.Ready ∧ st'.deals id =
      { st.deals id with
        encOutcome := some (outcomeExpr (st.deals id)),
        state := DealState.OutcomeComputed }) ∨
    ((st.deals id).state = DealState.OutcomeComputed ∧ ∃ o : Bool,
      st'.deals id =
      { st.deals id with
        success := o,
        state := if o then DealState.Settled else DealState.Canceled }) ∨
    (((st.deals id).state = DealState.Created ∨
      (st.deals id).state = DealState.A_Submitted) ∧ st'.deals id =
      { st.deals id with state := DealState.Canceled }) := by
  obtain ⟨op, h0, hself, hrun⟩ := h
  cases op with
  | create s m t a b =>
    obtain ⟨ht, ha, hbp, hbo, hst⟩ := createDeal_ok hrun
    subst hst
    by_cases hj : id = st.nextId + 1
    · subst hj
      have hdef : st.deals (st.nextId + 1) = defaultDeal :=
        hinv.2.2.1 _ (Nat.lt_succ_self _)
      have hD := setDeal_same st (st.nextId + 1)
        { mode := m, state := .Created, seller := s, buyer := b,
          paymentToken := t, amount := a, encAsk := none,
          encThreshold := none, encBid := none, encOutcome := none,
          success := false }
      refine Or.inr (Or.inl ⟨hdef, ?_, ?_, ?_, ?_, ?_, ?_⟩) <;>
        rw [show (createCommit s m t a b st).deals (st.nextId + 1) = _ from hD]
    · exact Or.inl (setDeal_other _ _ _ _ hj)
  | submit s idd a t =>
    obtain ⟨hstate, hsend, hst⟩ := sellerSubmit_ok hrun
    subst hst
    by_cases hj : id = idd
    · subst hj
      have hD := setDeal_same st id
        { st.deals id with
          encAsk := some a, encThreshold := some t,
          state := DealState.A_Submitted }
      exact Or.inr (Or.inr (Or.inl ⟨hstate, a, t, hD⟩))
    · exact Or.inl (setDeal_other _ _ _ _ hj)
  | bid s idd e tk =>
    obtain ⟨hlock, hstate, htok, hmode, hst⟩ := placeBid_ok hrun
    subst hst
    by_cases hj : id = idd
    · subst hj
      refine Or.inr (Or.inr (Or.inr (Or.inl ⟨hstate,
        if (st.deals id).mode = DealMode.P2P then (st.deals id).buyer else s,
        e, fun hm => if_pos hm, ?_⟩)))
      exact setDeal_same st id _
    · exact Or.inl (setDeal_other _ _ _ _ hj)
  | compute s idd =>
    obtain ⟨hstate, hst⟩ := computeOutcome_ok hrun
    subst hst
    by_cases hj : id = idd
    · subst hj
      exact Or.inr (Or.inr (Or.inr (Or.inr (Or.inl
        ⟨hstate, setDeal_same st id _⟩))))
    · exact Or.inl (setDeal_other _ _ _ _ hj)
  | fin s idd o sg tk =>
    have hrun' : finalizeWithOracle env s idd o sg tk st = Except.ok st' := hrun
    obtain ⟨hlock, hstate, hsell, hbuy, hlen, hv, hrec, htok, hst⟩ :=
      finalize_ok hrun'
    subst hst
    by_cases hj : id = idd
    · subst hj
      exact Or.inr (Or.inr (Or.inr (Or.inr (Or.inr (Or.inl
        ⟨hstate, o, setDeal_same st id _⟩)))))
    · exact Or.inl (setDeal_other _ _ _ _ hj)
  | cancel s idd =>
    obtain ⟨hstate, hsend, hst⟩ := cancel_ok hrun
    subst hst
    by_cases hj : id = idd
    · subst hj
      exact Or.inr (Or.inr (Or.inr (Or.inr (Or.inr (Or.inr
        ⟨hstate, setDeal_same st id _⟩)))))
    · exact Or.inl (setDeal_other _ _ _ _ hj)
  | setOracle s a =>
    obtain ⟨hown, ha, hst⟩ := setOracle_ok hrun
    subst hst
    exact Or.inl rfl
  | withdrawTok s t a tk =>
    obtain ⟨hown, htok, hst⟩ := withdraw_ok hrun
    subst hst
    exact Or.inl rfl

/-- Outside `finalizeWithOracle`, no operation writes any deal's
`success` field. -/
theorem step_success_frame {env : Env} {op : Op} {st st' : EState}
    (hinv : GlobalInv env st) (h : runOp env op st = .ok st')
    (hnf : op.isFin = false) :
    ∀ id, (st'.deals id).success = (st.deals id).success := by
  intro id
  cases op with
  | create s m t a b =>
    obtain ⟨ht, ha, hbp, hbo, hst⟩ := createDeal_ok h
    subst hst
    by_cases hj : id = st.nextId + 1
    · subst hj
      have hdef : st.deals (st.nextId + 1) = defaultDeal :=
        hinv.2.2.1 _ (Nat.lt_succ_self _)
      have hD := setDeal_same st (st.nextId + 1)
        { mode := m, state := .Created, seller := s, buyer := b,
          paymentToken := t, amount := a, encAsk := none,
          encThreshold := none, encBid := none, encOutcome := none,
          success := false }
      rw [show (createCommit s m t a b st).deals (st.nextId + 1) = _ from hD,
        hdef]
      rfl
    · rw [show (createCommit s m t a b st).deals id = st.deals id from
        setDeal_other _ _ _ _ hj]
  | submit s idd a t =>
    obtain ⟨_, _, hst⟩ := sellerSubmit_ok h
    subst hst
    by_cases hj : id = idd
    · subst hj
      have hD := setDeal_same st id
        { st.deals id with
          encAsk := some a, encThreshold := some t,
          state := DealState.A_Submitted }
      rw [show (submitCommit env id a t st).deals id = _ from hD]
    · rw [show (submitCommit env idd a t st).deals id = st.deals id from
        setDeal_other _ _ _ _ hj]
  | bid s idd e tk =>
    obtain ⟨_, _, _, _, hst⟩ := placeBid_ok h
    subst hst
    by_cases hj : id = idd
    · subst hj
      have hD := setDeal_same st id
        { st.deals id with
          buyer := if (st.deals id).mode = DealMode.P2P then
            (st.deals id).buyer else s,
          encBid := some e, state := DealState.Ready }
      rw [show (placeBidCommit env s id e st).deals id = _ from hD]
    · rw [show (placeBidCommit env s idd e st).deals id = st.deals id from
        setDeal_other _ _ _ _ hj]
  | compute s idd =>
    obtain ⟨_, hst⟩ := computeOutcome_ok h
    subst hst
    by_cases hj : id = idd
    · subst hj
      have hD := setDeal_same st id
        { st.deals id with
          encOutcome := some (outcomeExpr (st.deals id)),
          state := DealState.OutcomeComputed }
      rw [show (computeCommit id st).deals id = _ from hD]
    · rw [show (computeCommit idd st).deals id = st.deals id from
        setDeal_other _ _ _ _ hj]
  | fin s idd o sg tk => exact absurd hnf (by simp [Op.isFin])
  | cancel s idd =>
    obtain ⟨_, _, hst⟩ := cancel_ok h
    subst hst
    by_cases hj : id = idd
    · subst hj; rw [setDeal_same]
    · rw [setDeal_other _ _ _ _ hj]
  | setOracle s a =>
    obtain ⟨_, _, hst⟩ := setOracle_ok h
    subst hst
    rfl
  | withdrawTok s t a tk =>
    obtain ⟨_, _, hst⟩ := withdraw_ok h
    subst hst
    rfl

/-- The escrow table never allows more than one escrow or release. -/
theorem escrowInvAt_le {e r : Nat} {s : DealState} (h : escrowInvAt e r s) :
    e ≤ 1 ∧ r ≤ 1 := by
  cases s
  all_goals try { obtain ⟨h1, h2⟩ := h; omega }
  rcases h with ⟨h1, h2⟩ | ⟨h1, h2⟩ <;> omega

/-- Transfers out of the engine recorded in a log. -/
def outCount (env : Env) (l : List Transfer) : Nat :=
  l.countP (fun t => t.src == env.self)

theorem outCount_cons_ne {env : Env} {tr : Transfer} {l : List Transfer}
    (h : tr.src ≠ env.self) : outCount env (tr :: l) = outCount env l := by
  simp [outCount, List.countP_cons, beq_eq_false_iff_ne.mpr h]

/-! ## The claims -/

/-- Claim C1: for every deal, funds move exactly twice in its lifetime:
a successful `placeBid` logs exactly one transfer of exactly `amount` of
the deal's payment asset from the caller into the engine; a successful
`finalize` logs exactly one release of `amount` — to the seller on a true
outcome, to the buyer on a false one, never zero and never two; and on
every reachable state each deal has at most one escrow and at most one
release transfer, so each succeeds at most once per deal. -/
theorem c1_funds_move_exactly_twice :
    (∀ (env : Env) (sender : Address) (id encBid : Nat) (tok : Bool)
        (st st' : EState),
      placeBid env sender id encBid tok st = .ok st' →
      st'.transfers =
        { token := (st.deals id).paymentToken, src := sender,
          dst := env.self, amount := (st.deals id).amount,
          dealId := some id } :: st.transfers) ∧
    (∀ (env : Env) (sender : Address) (id : Nat) (outcome : Bool)
        (sig : List Nat) (tok : Bool) (st st' : EState),
      finalizeWithOracle env sender id outcome sig tok st = .ok st' →
      st'.transfers =
        { token := (st.deals id).paymentToken, src := env.self,
          dst := if outcome then (st.deals id).seller
            else (st.deals id).buyer,
          amount := (st.deals id).amount,
          dealId := some id } :: st.transfers) ∧
    (∀ (env : Env) (ow orc : Address) (st : EState), Reachable env ow orc st →
      ∀ id, escrowCount env st id ≤ 1 ∧ releaseCount env st id ≤ 1) := by
  refine ⟨?_, ?_, ?_⟩
  · intro env sender id encBid tok st st' h
    obtain ⟨_, _, _, _, hst⟩ := placeBid_ok h
    subst hst
    rfl
  · intro env sender id outcome sig tok st st' h
    obtain ⟨_, _, _, _, _, _, _, _, hst⟩ := finalize_ok h
    subst hst
    rfl
  · intro env ow orc st h id
    have he := (reachable_inv h).2.2.2.2 id
    unfold escrowInv at he
    exact escrowInvAt_le he

theorem c1_witness :
    s3W.transfers =
      { token := (s2W.deals 1).paymentToken, src := 3, dst := envW.self,
        amount := (s2W.deals 1).amount, dealId := some 1 } :: s2W.transfers ∧
    escrowCount envW s5W 1 ≤ 1 ∧ releaseCount envW s5W 1 ≤ 1 :=
  ⟨c1_funds_move_exactly_twice.1 envW 3 1 12 true s2W s3W rfl,
   c1_funds_move_exactly_twice.2.2 envW 5 9 s5W reach5 1⟩

/-- Claim C2: `finalizeWithOracle` succeeds only when the signature is
exactly 65 bytes, its recovery byte normalizes to 27 or 28, and recovery
over the prefixed keccak digest of `(address(this), chainid, id, outcome)`
yields exactly the configured `oracleSigner`; a signature violating any of
these conditions makes the call revert (committing nothing). -/
theorem c2_finalize_signature_gate (env : Env) (sender : Address) (id : Nat)
    (outcome : Bool) (sig : List Nat) (tok : Bool) (st : EState) :
    (∀ st', finalizeWithOracle env sender id outcome sig tok st = .ok st' →
      sig.length = 65 ∧ (normV sig = 27 ∨ normV sig = 28) ∧
      env.ecrecover (finalizeDigest env id outcome) (normV sig) (rPart sig)
        (sPart sig) = st.oracleSigner) ∧
    ((sig.length ≠ 65 ∨ (normV sig ≠ 27 ∧ normV sig ≠ 28) ∨
      env.ecrecover (finalizeDigest env id outcome) (normV sig) (rPart sig)
        (sPart sig) ≠ st.oracleSigner) →
      ∀ st', finalizeWithOracle env sender id outcome sig tok st ≠ .ok st') := by
  constructor
  · intro st' h
    obtain ⟨_, _, _, _, hl, hv, hr, _, _⟩ := finalize_ok h
    exact ⟨hl, hv, hr⟩
  · rintro hviol st' h
    obtain ⟨_, _, _, _, hl, hv, hr, _, _⟩ := finalize_ok h
    rcases hviol with h1 | ⟨h1, h2⟩ | h1
    · exact h1 hl
    · rcases hv with h3 | h3
      · exact h1 h3
      · exact h2 h3
    · exact h1 hr

theorem c2_witness :
    (sigGood.length = 65 ∧ (normV sigGood = 27 ∨ normV sigGood = 28) ∧
      envW.ecrecover (finalizeDigest envW 1 true) (normV sigGood)
        (rPart sigGood) (sPart sigGood) = s4W.oracleSigner) ∧
    finalizeWithOracle envW 6 1 true sigZero true s4W ≠ Except.ok s4W :=
  ⟨(c2_finalize_signature_gate envW 6 1 true sigGood true s4W).1 s5W rfl,
   (c2_finalize_signature_gate envW 6 1 true sigZero true s4W).2
     (Or.inr (Or.inr (by decide))) s4W⟩

/-- Claim C5: `computeOutcome` on a deal in state `Ready` succeeds (it is
callable by anyone: the function takes no caller and checks none), stores
as the deal's encrypted outcome exactly
`AND(LE(encBid, encAsk), LE(encAsk, encThreshold))` (the threshold is
always present in this contract), grants the configured oracle signer
decrypt rights over that outcome value only — the `euint32` input grants
are untouched — moves no funds, and advances the state to
`OutcomeComputed`. -/
theorem c5_compute_outcome (id : Nat) (st : EState)
    (h : (st.deals id).state = DealState.Ready) :
    computeOutcome id st = .ok (computeCommit id st) ∧
    ((computeCommit id st).deals id).encOutcome =
      some (outcomeExpr (st.deals id)) ∧
    ((computeCommit id st).deals id).state = DealState.OutcomeComputed ∧
    (computeCommit id st).aclBool =
      (outcomeExpr (st.deals id), st.oracleSigner) :: st.aclBool ∧
    (computeCommit id st).aclU32 = st.aclU32 ∧
    (computeCommit id st).transfers = st.transfers ∧
    outcomeExpr (st.deals id) =
      EBool.and
        (EBool.le ((st.deals id).encBid.getD 0) ((st.deals id).encAsk.getD 0))
        (EBool.le ((st.deals id).encAsk.getD 0)
          ((st.deals id).encThreshold.getD 0)) := by
  have hD := setDeal_same st id
    { st.deals id with
      encOutcome := some (outcomeExpr (st.deals id)),
      state := DealState.OutcomeComputed }
  refine ⟨?_, ?_, ?_, rfl, rfl, rfl, rfl⟩
  · unfold computeOutcome
    rw [if_neg (by simp [h])]
  · rw [show (computeCommit id st).deals id = _ from hD]
  · rw [show (computeCommit id st).deals id = _ from hD]

theorem c5_witness :
    computeOutcome 1 s3W = Except.ok (computeCommit 1 s3W) ∧
    ((computeCommit 1 s3W).deals 1).encOutcome =
      some (outcomeExpr (s3W.deals 1)) ∧
    ((computeCommit 1 s3W).deals 1).state = DealState.OutcomeComputed ∧
    (computeCommit 1 s3W).aclU32 = s3W.aclU32 :=
  ⟨(c5_compute_outcome 1 s3W rfl).1, (c5_compute_outcome 1 s3W rfl).2.1,
   (c5_compute_outcome 1 s3W rfl).2.2.1,
   (c5_compute_outcome 1 s3W rfl).2.2.2.2.1⟩

/-- Claim C10: on every reachable state the configured `oracleSigner` is
nonzero (the constructor and `setOracleSigner` both reject the zero
address), so a signature whose recovery yields the zero principal can
never pass finalize's equality check: `finalizeWithOracle` with such a
signature never succeeds. -/
theorem c10_oracle_never_zero (env : Env) (ow orc : Address) (st : EState)
    (h : Reachable env ow orc st) :
    st.oracleSigner ≠ 0 ∧
    ∀ (sender : Address) (id : Nat) (outcome : Bool) (sig : List Nat)
      (tok : Bool) (st' : EState),
      env.ecrecover (finalizeDigest env id outcome) (normV sig) (rPart sig)
        (sPart sig) = 0 →
      finalizeWithOracle env sender id outcome sig tok st ≠ .ok st' := by
  have ho := (reachable_inv h).2.1
  refine ⟨ho, ?_⟩
  intro sender id outcome sig tok st' hzero hok
  obtain ⟨_, _, _, _, _, _, hr, _, _⟩ := finalize_ok hok
  rw [hzero] at hr
  exact ho hr.symm

theorem c10_witness :
    s4W.oracleSigner ≠ 0 ∧
    finalizeWithOracle envW 8 1 true sigZero true s4W ≠ Except.ok s4W :=
  ⟨(c10_oracle_never_zero envW 5 9 s4W reach4).1,
   (c10_oracle_never_zero envW 5 9 s4W reach4).2 8 1 true sigZero true s4W
     (by decide)⟩

/-- Claim C3: `finalizeWithOracle` sets the public `success` field exactly
once per deal: a successful call writes `success := outcome` and moves the
deal to a terminal state; every second finalize call on that deal then
reverts with the state-guard error `badStateOC` — an `InvalidState`
error — committing nothing; and no non-finalize operation ever writes any
deal's `success` field. -/
theorem c3_success_set_once :
    (∀ (env : Env) (sender : Address) (id : Nat) (outcome : Bool)
        (sig : List Nat) (tok : Bool) (st st' : EState),
      finalizeWithOracle env sender id outcome sig tok st = .ok st' →
      (st'.deals id).success = outcome ∧
      terminalState ((st'.deals id).state) ∧
      (∀ (sender2 : Address) (o2 : Bool) (sig2 : List Nat) (tok2 : Bool),
        finalizeWithOracle env sender2 id o2 sig2 tok2 st' =
          .error Err.badStateOC)) ∧
    (∀ (env : Env) (ow orc : Address) (op : Op) (st st' : EState),
      Reachable env ow orc st → runOp env op st = .ok st' →
      op.isFin = false →
      ∀ id, (st'.deals id).success = (st.deals id).success) ∧
    errClass Err.badStateOC = ErrClass.invalidState := by
  refine ⟨?_, ?_, rfl⟩
  · intro env sender id outcome sig tok st st' h
    obtain ⟨hlock, hstate, _, _, _, _, _, _, hst⟩ := finalize_ok h
    subst hst
    have hD := setDeal_same st id
      { st.deals id with
        success := outcome,
        state := if outcome then DealState.Settled else DealState.Canceled }
    have hS : ((finalizeCommit env id outcome st).deals id).state =
        (if outcome then DealState.Settled else DealState.Canceled) := by
      rw [show (finalizeCommit env id outcome st).deals id = _ from hD]
    have hlock' : (finalizeCommit env id outcome st).locked = false := hlock
    refine ⟨?_, ?_, ?_⟩
    · rw [show (finalizeCommit env id outcome st).deals id = _ from hD]
    · rw [terminalState, hS]
      cases outcome <;> simp
    · intro sender2 o2 sig2 tok2
      unfold finalizeWithOracle
      rw [if_neg (by rw [hlock']; simp),
        if_pos (by rw [hS]; cases outcome <;> simp)]
  · intro env ow orc op st st' hre hrun hnf id
    exact step_success_frame (reachable_inv hre) hrun hnf id

theorem c3_witness :
    (s5W.deals 1).success = true ∧ terminalState ((s5W.deals 1).state) ∧
    finalizeWithOracle envW 8 1 false sigGood true s5W =
      Except.error Err.badStateOC ∧
    (s4W.deals 1).success = (s3W.deals 1).success := by
  have h := c3_success_set_once.1 envW 6 1 true sigGood true s4W s5W rfl
  exact ⟨h.1, h.2.1, h.2.2 8 false sigGood true,
    c3_success_set_once.2.1 envW 5 9 (Op.compute 7 1) s3W s4W reach3 rfl rfl 1⟩

/-- Claim C4: a deal's state never regresses: over any transition from a
reachable state, every deal's state rank in the order
`None < Created < AskSubmitted < Ready < OutcomeComputed < {Settled,
Canceled}` is monotone, and a deal that has reached a terminal state is
never changed again in any field. -/
theorem c4_state_monotone (env : Env) (ow orc : Address) (st st' : EState)
    (h1 : Reachable env ow orc st) (h2 : Step env st st') :
    ∀ id, stateRank ((st.deals id).state) ≤ stateRank ((st'.deals id).state) ∧
      (terminalState ((st.deals id).state) → st'.deals id = st.deals id) := by
  intro id
  have hinv := reachable_inv h1
  rcases step_deal_shape hinv h2 id with hE | ⟨hdef, hC, _⟩ | ⟨hs, a, t, hE⟩ |
    ⟨hs, b, e, hP, hE⟩ | ⟨hs, hE⟩ | ⟨hs, o, hE⟩ | ⟨hs, hE⟩
  · rw [hE]
    exact ⟨le_refl _, fun _ => rfl⟩
  · constructor
    · rw [hdef, hC]
      decide
    · intro hterm
      rw [hdef] at hterm
      exact absurd hterm (by decide)
  · constructor
    · rw [hs, hE]
      simp [stateRank]
    · intro hterm
      rw [hs] at hterm
      exact absurd hterm (by decide)
  · constructor
    · rw [hs, hE]
      simp [stateRank]
    · intro hterm
      rw [hs] at hterm
      exact absurd hterm (by decide)
  · constructor
    · rw [hs, hE]
      simp [stateRank]
    · intro hterm
      rw [hs] at hterm
      exact absurd hterm (by decide)
  · constructor
    · rw [hs, hE]
      cases o <;> simp [stateRank]
    · intro hterm
      rw [hs] at hterm
      exact absurd hterm (by decide)
  · constructor
    · rcases hs with h | h <;> rw [h, hE] <;> simp [stateRank]
    · intro hterm
      rcases hs with h | h <;> rw [h] at hterm <;>
        exact absurd hterm (by decide)

theorem c4_witness :
    stateRank ((s3W.deals 1).state) ≤ stateRank ((s4W.deals 1).state) ∧
    (terminalState ((s3W.deals 1).state) → s4W.deals 1 = s3W.deals 1) :=
  c4_state_monotone envW 5 9 s3W s4W reach3 step34 1

/-- The Ready state with the engine-wide re-entrancy lock held. -/
def s3Wlocked : EState := { s3W with locked := true }

/-- The mid-finalize state of deal 1 as the transfer callback sees it. -/
def mW : EState := okState (finalizeMid envW 6 1 true sigGood s4W) s0W

/-- Claim C6 counterexample: both mechanisms the claim asserts are absent
at a concrete input. At the moment `finalizeWithOracle` of deal 1 makes
its external transfer (`finalizeMid`), the deal's state is still the
non-terminal `OutcomeComputed` — the terminal state write does not happen
before the transfer; and `computeOutcome` is not guarded by the
engine-wide re-entrancy lock: it succeeds on a Ready deal even while the
lock is held. -/
theorem c6_counterexample :
    stateOfE (finalizeMid envW 6 1 true sigGood s4W) 1 =
      DealState.OutcomeComputed ∧
    ¬ terminalState DealState.OutcomeComputed ∧
    s3Wlocked.locked = true ∧
    stateOfE (computeOutcome 1 s3Wlocked) 1 = DealState.OutcomeComputed := by
  exact ⟨rfl, by decide, rfl, rfl⟩

/-- Claim C6 amended: from the state a transfer callback observes during
`finalizeWithOracle` (lock held, `success` written, state still
`OutcomeComputed`), a re-entrant `finalizeWithOracle` or `placeBid` on the
same deal reverts on the re-entrancy lock, and a re-entrant
`computeOutcome` on the same deal reverts on its state guard — so no
re-entrant call can re-invoke finalize, placeBid, or computeOutcome on
that deal before its state is terminal, even though the state write
itself happens only after the transfer and computeOutcome carries no
lock. -/
theorem c6_reentrancy_protection (env : Env) (sender : Address) (id : Nat)
    (outcome : Bool) (sig : List Nat) (st m : EState)
    (h : finalizeMid env sender id outcome sig st = .ok m) :
    ∀ (sender2 : Address) (o2 : Bool) (sig2 : List Nat) (tok2 : Bool)
      (e2 : Nat),
      finalizeWithOracle env sender2 id o2 sig2 tok2 m =
        .error Err.reentrancy ∧
      placeBid env sender2 id e2 tok2 m = .error Err.reentrancy ∧
      computeOutcome id m = .error Err.badStateR := by
  obtain ⟨hlock, hstate, _⟩ := finalizeMid_ok h
  intro sender2 o2 sig2 tok2 e2
  refine ⟨?_, ?_, ?_⟩
  · unfold finalizeWithOracle
    rw [if_pos hlock]
  · unfold placeBid
    rw [if_pos hlock]
  · unfold computeOutcome
    rw [if_pos (by rw [hstate]; decide)]

theorem c6_witness :
    finalizeWithOracle envW 3 1 true sigGood true mW =
      Except.error Err.reentrancy ∧
    placeBid envW 3 1 12 true mW = Except.error Err.reentrancy ∧
    computeOutcome 1 mW = Except.error Err.badStateR :=
  c6_reentrancy_protection envW 6 1 true sigGood s4W mW rfl 3 true sigGood
    true 12

/-- The post-`emergencyWithdraw` state of the escrowed deal scenario. -/
def s3Wd : EState := okState (emergencyWithdraw envW 5 4 100 true s3W) s0W

/-- Claim C7 counterexample: with deal 1 sitting between `placeBid` and
`finalize` (state `Ready`, one escrow transfer recorded, nothing released,
no outbound transfer yet), the owner-only `emergencyWithdraw` — an
operation that is not that deal's finalize — succeeds and logs an
outbound transfer of the escrowed amount, leaving the deal still
`Ready`. -/
theorem c7_counterexample :
    (s3W.deals 1).state = DealState.Ready ∧
    escrowCount envW s3W 1 = 1 ∧ releaseCount envW s3W 1 = 0 ∧
    outCount envW s3W.transfers = 0 ∧
    emergencyWithdraw envW 5 4 100 true s3W = Except.ok s3Wd ∧
    (s3Wd.deals 1).state = DealState.Ready ∧
    outCount envW s3Wd.transfers = 1 := by
  exact ⟨rfl, rfl, rfl, rfl, rfl, rfl, rfl⟩

/-- Claim C7 amended: between `placeBid` and `finalize` the escrowed
balance is held by the engine and no operation other than a deal's
`finalizeWithOracle` or the owner-only `emergencyWithdraw` ever moves
funds out of the engine: every other successful operation leaves the
engine's outbound transfer count unchanged, and `emergencyWithdraw` only
succeeds for the owner. -/
theorem c7_escrow_custody (env : Env) (op : Op) (st st' : EState)
    (hself : op.sender ≠ env.self)
    (h : runOp env op st = .ok st') :
    (op.isFin = false → op.isWithdraw = false →
      outCount env st'.transfers = outCount env st.transfers) ∧
    (op.isWithdraw = true → op.sender = st.owner) := by
  cases op with
  | create s m t a b =>
    obtain ⟨_, _, _, _, hst⟩ := createDeal_ok h
    subst hst
    exact ⟨fun _ _ => rfl, fun hc => by simp [Op.isWithdraw] at hc⟩
  | submit s idd a t =>
    obtain ⟨_, _, hst⟩ := sellerSubmit_ok h
    subst hst
    exact ⟨fun _ _ => rfl, fun hc => by simp [Op.isWithdraw] at hc⟩
  | bid s idd e tk =>
    obtain ⟨_, _, _, _, hst⟩ := placeBid_ok h
    subst hst
    refine ⟨fun _ _ => ?_, fun hc => by simp [Op.isWithdraw] at hc⟩
    exact outCount_cons_ne hself
  | compute s idd =>
    obtain ⟨_, hst⟩ := computeOutcome_ok h
    subst hst
    exact ⟨fun _ _ => rfl, fun hc => by simp [Op.isWithdraw] at hc⟩
  | fin s idd o sg tk =>
    exact ⟨fun hc _ => by simp [Op.isFin] at hc,
      fun hc => by simp [Op.isWithdraw] at hc⟩
  | cancel s idd =>
    obtain ⟨_, _, hst⟩ := cancel_ok h
    subst hst
    exact ⟨fun _ _ => rfl, fun hc => by simp [Op.isWithdraw] at hc⟩
  | setOracle s a =>
    obtain ⟨_, _, hst⟩ := setOracle_ok h
    subst hst
    exact ⟨fun _ _ => rfl, fun hc => by simp [Op.isWithdraw] at hc⟩
  | withdrawTok s t a tk =>
    obtain ⟨hown, _, hst⟩ := withdraw_ok h
    exact ⟨fun _ hc => by simp [Op.isWithdraw] at hc, fun _ => hown⟩

theorem c7_witness :
    outCount envW s4W.transfers = outCount envW s3W.transfers :=
  (c7_escrow_custody envW (Op.compute 7 1) s3W s4W (by decide) rfl).1 rfl rfl

/-- Claim C8 counterexample: on a P2P (DIRECT) deal that is not yet
awaiting a bid (state `Created`), a `placeBid` from a principal other
than the fixed counterparty fails with the state-guard error
`badStateA` — an `InvalidState` error, not an `Unauthorized` one as the
claim states. -/
theorem c8_counterexample :
    (s1W.deals 1).mode = DealMode.P2P ∧ (s1W.deals 1).buyer = 3 ∧
    (8 : Address) ≠ (s1W.deals 1).buyer ∧
    (s1W.deals 1).state = DealState.Created ∧
    placeBid envW 8 1 12 true s1W = Except.error Err.badStateA ∧
    errClass Err.badStateA ≠ ErrClass.unauthorized := by
  exact ⟨rfl, rfl, by decide, rfl, rfl, by decide⟩

/-- Claim C8 amended: on a P2P (DIRECT) deal, every `placeBid` from a
principal other than the fixed counterparty fails — with the
`Unauthorized`-class error `buyerFixed` when the deal is awaiting the bid
(state `AskSubmitted`), and with an `InvalidState` error otherwise; and
the P2P counterparty never changes over any reachable transition. For an
OPEN deal, the first successful `placeBid` binds its caller as the buyer,
and every subsequent `placeBid` on that deal (any principal) fails with
the state guard. -/
theorem c8_bid_authorization :
    (∀ (env : Env) (sender : Address) (id e : Nat) (tok : Bool) (st : EState),
      st.locked = false → (st.deals id).mode = DealMode.P2P →
      sender ≠ (st.deals id).buyer →
      (∃ err, placeBid env sender id e tok st = .error err) ∧
      ((st.deals id).state = DealState.A_Submitted →
        placeBid env sender id e tok st = .error Err.buyerFixed ∧
        errClass Err.buyerFixed = ErrClass.unauthorized)) ∧
    (∀ (env : Env) (sender : Address) (id e : Nat) (tok : Bool)
        (st st' : EState),
      placeBid env sender id e tok st = .ok st' →
      (st.deals id).mode = DealMode.OPEN → (st'.deals id).buyer = sender) ∧
    (∀ (env : Env) (sender : Address) (id e : Nat) (tok : Bool)
        (st st' : EState),
      placeBid env sender id e tok st = .ok st' →
      ∀ (sender2 : Address) (e2 : Nat) (tok2 : Bool),
        placeBid env sender2 id e2 tok2 st' = .error Err.badStateA) ∧
    (∀ (env : Env) (ow orc : Address) (st st' : EState) (id : Nat),
      Reachable env ow orc st → Step env st st' →
      (st.deals id).state ≠ DealState.None →
      (st.deals id).mode = DealMode.P2P →
      (st'.deals id).buyer = (st.deals id).buyer) := by
  refine ⟨?_, ?_, ?_, ?_⟩
  · intro env sender id e tok st hlock hmode hsender
    by_cases hstA : (st.deals id).state = DealState.A_Submitted
    · have herr : placeBid env sender id e tok st = .error Err.buyerFixed := by
        unfold placeBid
        rw [if_neg (by rw [hlock]; simp), if_neg (by rw [hstA]; simp),
          if_pos hmode, if_pos hsender]
      exact ⟨⟨Err.buyerFixed, herr⟩, fun _ => ⟨herr, rfl⟩⟩
    · have herr : placeBid env sender id e tok st = .error Err.badStateA := by
        unfold placeBid
        rw [if_neg (by rw [hlock]; simp), if_pos hstA]
      exact ⟨⟨Err.badStateA, herr⟩, fun hc => absurd hc hstA⟩
  · intro env sender id e tok st st' h hm
    obtain ⟨_, _, _, _, hst⟩ := placeBid_ok h
    subst hst
    have hD := setDeal_same st id
      { st.deals id with
        buyer := if (st.deals id).mode = DealMode.P2P then (st.deals id).buyer
          else sender,
        encBid := some e, state := DealState.Ready }
    rw [show (placeBidCommit env sender id e st).deals id = _ from hD]
    show (if (st.deals id).mode = DealMode.P2P then (st.deals id).buyer
      else sender) = sender
    have hnp : (st.deals id).mode ≠ DealMode.P2P := by rw [hm]; decide
    rw [if_neg hnp]
  · intro env sender id e tok st st' h sender2 e2 tok2
    obtain ⟨hlock, hstate, _, _, hst⟩ := placeBid_ok h
    subst hst
    have hD := setDeal_same st id
      { st.deals id with
        buyer := if (st.deals id).mode = DealMode.P2P then (st.deals id).buyer
          else sender,
        encBid := some e, state := DealState.Ready }
    have hlock' : (placeBidCommit env sender id e st).locked = false := hlock
    have hS : ((placeBidCommit env sender id e st).deals id).state =
        DealState.Ready := by
      rw [show (placeBidCommit env sender id e st).deals id = _ from hD]
    unfold placeBid
    rw [if_neg (by rw [hlock']; simp), if_pos (by rw [hS]; decide)]
  · intro env ow orc st st' id hre hstep hnone hm
    rcases step_deal_shape (reachable_inv hre) hstep id with hE | ⟨hdef, _⟩ |
      ⟨hs, a, t, hE⟩ | ⟨hs, b, e, hP, hE⟩ | ⟨hs, hE⟩ | ⟨hs, o, hE⟩ | ⟨hs, hE⟩
    · rw [hE]
    · exact absurd (by rw [hdef]; rfl : (st.deals id).state = DealState.None)
        hnone
    · rw [hE]
    · rw [hE]
      exact hP hm
    · rw [hE]
    · rw [hE]
    · rw [hE]

theorem c8_witness :
    (∃ err, placeBid envW 8 1 20 true s2W = Except.error err) ∧
    (placeBid envW 8 1 20 true s2W = Except.error Err.buyerFixed ∧
      errClass Err.buyerFixed = ErrClass.unauthorized) ∧
    (s3W.deals 1).buyer = (s2W.deals 1).buyer := by
  have h1 := c8_bid_authorization.1 envW 8 1 20 true s2W rfl rfl (by decide)
  exact ⟨h1.1, h1.2 rfl,
    c8_bid_authorization.2.2.2 envW 5 9 s2W s3W 1 reach2 step23 (by decide)
      rfl⟩

/-- Claim C9 counterexample: re-supplying an already-set ciphertext field
does not fail with an `AlreadySet` error: with deal 1's `encAsk` already
set, a second `sellerSubmit` fails with the state-guard error `badState`,
whose class is `InvalidState`, not `AlreadySet`. -/
theorem c9_counterexample :
    (s2W.deals 1).encAsk = some 10 ∧
    sellerSubmit envW 2 1 20 21 s2W = Except.error Err.badState ∧
    errClass Err.badState ≠ ErrClass.alreadySet := by
  exact ⟨rfl, rfl, by decide⟩

/-- Claim C9 amended: every encrypted field of a deal (`encAsk`,
`encThreshold`, `encBid`, `encOutcome`) is written at most once in the
deal's lifetime and a bound counterparty is never rebound — but the
attempts are rejected by the state machine's `InvalidState` guards
(`badState`, `badStateA`, `badStateR`), not by an `AlreadySet` error: once
a field is set, it is preserved by every transition, and the operation
that could write it reverts, leaving the deal unchanged. -/
theorem c9_write_once :
    (∀ (env : Env) (ow orc : Address) (st st' : EState),
      Reachable env ow orc st → Step env st st' → ∀ id,
      ((st.deals id).encAsk.isSome = true →
        (st'.deals id).encAsk = (st.deals id).encAsk) ∧
      ((st.deals id).encThreshold.isSome = true →
        (st'.deals id).encThreshold = (st.deals id).encThreshold) ∧
      ((st.deals id).encBid.isSome = true →
        (st'.deals id).encBid = (st.deals id).encBid) ∧
      ((st.deals id).encOutcome.isSome = true →
        (st'.deals id).encOutcome = (st.deals id).encOutcome) ∧
      ((st.deals id).buyer ≠ 0 →
        (st'.deals id).buyer = (st.deals id).buyer)) ∧
    (∀ (env : Env) (ow orc : Address) (st : EState) (id : Nat),
      Reachable env ow orc st →
      ((st.deals id).encAsk.isSome = true → ∀ (sender : Address) (a t : Nat),
        sellerSubmit env sender id a t st = .error Err.badState) ∧
      ((st.deals id).encBid.isSome = true →
        ∀ (sender : Address) (e : Nat) (tok : Bool),
        placeBid env sender id e tok st = .error Err.badStateA) ∧
      ((st.deals id).encOutcome.isSome = true →
        computeOutcome id st = .error Err.badStateR) ∧
      ((st.deals id).mode = DealMode.OPEN → (st.deals id).buyer ≠ 0 →
        ∀ (sender : Address) (e : Nat) (tok : Bool),
        placeBid env sender id e tok st = .error Err.badStateA)) ∧
    (errClass Err.badState = ErrClass.invalidState ∧
     errClass Err.badStateA = ErrClass.invalidState ∧
     errClass Err.badStateR = ErrClass.invalidState) := by
  refine ⟨?_, ?_, rfl, rfl, rfl⟩
  · intro env ow orc st st' hre hstep id
    have hinv := reachable_inv hre
    have hd := hinv.2.2.2.1 id
    unfold dealInv at hd
    rcases step_deal_shape hinv hstep id with hE | ⟨hdef, _⟩ |
      ⟨hs, a, t, hE⟩ | ⟨hs, b, e, hP, hE⟩ | ⟨hs, hE⟩ | ⟨hs, o, hE⟩ | ⟨hs, hE⟩
    · rw [hE]
      exact ⟨fun _ => rfl, fun _ => rfl, fun _ => rfl, fun _ => rfl,
        fun _ => rfl⟩
    · rw [hdef]
      refine ⟨?_, ?_, ?_, ?_, ?_⟩ <;> intro hyp <;> simp [defaultDeal] at hyp
    · rw [hs] at hd
      obtain ⟨hA, hT, hB, hO, _, _, _, _⟩ := hd
      rw [hE]
      refine ⟨?_, ?_, fun _ => rfl, fun _ => rfl, fun _ => rfl⟩
      · intro hyp
        rw [hA] at hyp
        simp at hyp
      · intro hyp
        rw [hT] at hyp
        simp at hyp
    · rw [hs] at hd
      obtain ⟨hA, hT, hB, hO, _, _, hbp, hbo⟩ := hd
      rw [hE]
      refine ⟨fun _ => rfl, fun _ => rfl, ?_, fun _ => rfl, ?_⟩
      · intro hyp
        rw [hB] at hyp
        simp at hyp
      · intro hyp
        cases hmm : (st.deals id).mode with
        | P2P => exact hP hmm
        | OPEN => exact absurd (hbo hmm) hyp
    · rw [hs] at hd
      obtain ⟨hA, hT, hB, hO, _, _, _, _⟩ := hd
      rw [hE]
      refine ⟨fun _ => rfl, fun _ => rfl, fun _ => rfl, ?_, fun _ => rfl⟩
      intro hyp
      rw [hO] at hyp
      simp at hyp
    · rw [hE]
      exact ⟨fun _ => rfl, fun _ => rfl, fun _ => rfl, fun _ => rfl,
        fun _ => rfl⟩
    · rw [hE]
      exact ⟨fun _ => rfl, fun _ => rfl, fun _ => rfl, fun _ => rfl,
        fun _ => rfl⟩
  · intro env ow orc st id hre
    have hinv := reachable_inv hre
    have hd := hinv.2.2.2.1 id
    unfold dealInv at hd
    have hlock := hinv.1
    refine ⟨?_, ?_, ?_, ?_⟩
    · intro hset sender a t
      have hne : (st.deals id).state ≠ DealState.Created := by
        intro hC
        rw [hC] at hd
        obtain ⟨hA, _⟩ := hd
        rw [hA] at hset
        simp at hset
      unfold sellerSubmit
      rw [if_pos hne]
    · intro hset sender e tok
      have hne : (st.deals id).state ≠ DealState.A_Submitted := by
        intro hC
        rw [hC] at hd
        obtain ⟨_, _, hB, _⟩ := hd
        rw [hB] at hset
        simp at hset
      unfold placeBid
      rw [if_neg (by rw [hlock]; simp), if_pos hne]
    · intro hset
      have hne : (st.deals id).state ≠ DealState.Ready := by
        intro hC
        rw [hC] at hd
        obtain ⟨_, _, _, hO, _⟩ := hd
        rw [hO] at hset
        simp at hset
      unfold computeOutcome
      rw [if_pos hne]
    · intro hm hb sender e tok
      have hne : (st.deals id).state ≠ DealState.A_Submitted := by
        intro hC
        rw [hC] at hd
        obtain ⟨_, _, _, _, _, _, _, hbo⟩ := hd
        exact hb (hbo hm)
      unfold placeBid
      rw [if_neg (by rw [hlock]; simp), if_pos hne]

theorem c9_witness :
    (s3W.deals 1).encAsk = (s2W.deals 1).encAsk ∧
    sellerSubmit envW 9 1 20 21 s2W = Except.error Err.badState ∧
    computeOutcome 1 s4W = Except.error Err.badStateR :=
  ⟨(c9_write_once.1 envW 5 9 s2W s3W reach2 step23 1).1 rfl,
   (c9_write_once.2.1 envW 5 9 s2W 1 reach2).1 rfl 9 20 21,
   (c9_write_once.2.1 envW 5 9 s4W 1 reach4).2.2.1 rfl⟩

end BlindEscrow
